import Mathlib

/-
  Shallow embedding of the restaurant backend (src/main.py, src/init_db.py).

  The SQLite database is modelled as explicit lists of rows, one list per
  table, together with the autoincrement counter of each table.  Every
  endpoint of main.py becomes a function from the database state (and the
  request body) to a pair of the HTTP-level outcome and the database state
  after the call.  Because every execute_sql call commits on its own, a
  handler that raises midway still returns the mutated state: the pair
  returned on the error path carries all writes performed before the raise.
-/

namespace Restaurant

/-- Row of the customers table (init_db.py): id, full_name, contact_number. -/
structure CustomerRow where
  id : Nat
  full_name : String
  contact_number : String
deriving DecidableEq

/-- Row of the menu_items table: id, dish_name, cost.  The REAL cost column
is modelled with the rationals. -/
structure MenuRow where
  id : Nat
  dish_name : String
  cost : Rat
deriving DecidableEq

/-- Row of the customer_orders table: id, customer_id, order_notes,
order_time (seconds since epoch, an integer). -/
structure OrderRow where
  id : Nat
  customer_id : Nat
  order_notes : String
  order_time : Nat
deriving DecidableEq

/-- Row of the ordered_items table: id, order_id, menu_item_id. -/
structure LineRow where
  id : Nat
  order_id : Nat
  menu_item_id : Nat
deriving DecidableEq

/-- The whole SQLite file: the four tables plus the autoincrement counter
of each table (the id handed to the next inserted row). -/
structure DB where
  customers : List CustomerRow
  menu_items : List MenuRow
  customer_orders : List OrderRow
  ordered_items : List LineRow
  nextCustomerId : Nat
  nextMenuItemId : Nat
  nextOrderId : Nat
  nextLineId : Nat
deriving DecidableEq

/-- Pydantic model Customer: request body of the customer endpoints. -/
structure Customer where
  full_name : String
  contact_number : String
deriving DecidableEq

/-- Pydantic model MenuItem: request body of the menu-item endpoints and
the element type of an order request item list (dish name plus the
client-supplied cost). -/
structure MenuItem where
  dish_name : String
  cost : Rat
deriving DecidableEq

/-- Pydantic model OrderDetails: request body of POST and PUT on orders. -/
structure OrderDetails where
  customer_id : Nat
  items : List MenuItem
  order_notes : Option String
deriving DecidableEq

/-- The error outcomes raised by main.py (HTTPException), by status and
detail.  The dish-name lookup failure carries the dish name that appears
in the detail message. -/
inductive ApiError where
  | customerNotFound
  | menuItemNotFound (dish : String)
  | menuItemNotFoundById
  | orderNotFound
  | duplicateContact
  | dishNameConflict
  | contactNumberConflict
deriving DecidableEq

/-- One price reconciliation note.  main.py builds the message string
from these three values (dish name, client-supplied cost, canonical
cost); the model keeps the values themselves. -/
structure ReconNote where
  dish_name : String
  old_cost : Rat
  new_cost : Rat
deriving DecidableEq

/-- Response of POST /orders and PUT /orders: the order id and, only when
at least one note was generated, the list of reconciliation notes. -/
structure OrderWriteResponse where
  id : Nat
  price_changes : Option (List ReconNote)
deriving DecidableEq

/-- One element of the items array returned by GET /orders. -/
structure OrderItemView where
  dish_name : String
  cost : Rat
deriving DecidableEq

/-- Response of GET /orders: header fields plus the joined items. -/
structure OrderView where
  id : Nat
  customer_id : Nat
  order_notes : String
  items : List OrderItemView
deriving DecidableEq

instance {ε α : Type} [DecidableEq ε] [DecidableEq α] :
    DecidableEq (Except ε α) := fun a b =>
  match a, b with
  | .ok x, .ok y =>
    if h : x = y then .isTrue (by rw [h]) else .isFalse (by simp [h])
  | .ok _, .error _ => .isFalse (by simp)
  | .error _, .ok _ => .isFalse (by simp)
  | .error e, .error f =>
    if h : e = f then .isTrue (by rw [h]) else .isFalse (by simp [h])

/-- SELECT ... WHERE id = ? with fetchone: the first row with that id.
does_record_exist on the customers table. -/
def findCustomerById (db : DB) (id : Nat) : Option CustomerRow :=
  db.customers.find? (fun r => r.id = id)

/-- does_record_exist on the menu_items table. -/
def findMenuById (db : DB) (id : Nat) : Option MenuRow :=
  db.menu_items.find? (fun r => r.id = id)

/-- does_record_exist on the customer_orders table. -/
def findOrderById (db : DB) (id : Nat) : Option OrderRow :=
  db.customer_orders.find? (fun r => r.id = id)

/-- SELECT id, cost FROM menu_items WHERE dish_name = ? with fetchone:
the first menu row with that dish name. -/
def menuLookup (menu : List MenuRow) (name : String) : Option MenuRow :=
  menu.find? (fun m => m.dish_name = name)

/-- POST /customers: INSERT; the UNIQUE constraint on contact_number
raises IntegrityError, caught and surfaced as a 400 conflict. -/
def create_customer (db : DB) (c : Customer) : Except ApiError Nat × DB :=
  if db.customers.any (fun r => r.contact_number = c.contact_number) then
    (.error .duplicateContact, db)
  else
    (.ok db.nextCustomerId,
     { db with
        customers := db.customers ++
          [⟨db.nextCustomerId, c.full_name, c.contact_number⟩],
        nextCustomerId := db.nextCustomerId + 1 })

/-- GET /customers: 404 when absent, else the row. -/
def get_customer (db : DB) (id : Nat) : Except ApiError CustomerRow :=
  match findCustomerById db id with
  | none => .error .customerNotFound
  | some r => .ok r

/-- PUT /customers: 404 when absent, else overwrite both fields.  The
UNIQUE constraint on contact_number is enforced by the store on UPDATE
too: a contact number held by a different row raises IntegrityError,
which this handler does not catch, and nothing is written. -/
def update_customer (db : DB) (id : Nat) (c : Customer) :
    Except ApiError Unit × DB :=
  match findCustomerById db id with
  | none => (.error .customerNotFound, db)
  | some _ =>
    if db.customers.any (fun r =>
        r.id ≠ id ∧ r.contact_number = c.contact_number) then
      (.error .contactNumberConflict, db)
    else
      (.ok (),
       { db with customers := db.customers.map (fun r =>
          if r.id = id then
            { r with full_name := c.full_name,
                     contact_number := c.contact_number }
          else r) })

/-- DELETE /customers: 404 when absent, else remove the row.  No cascade:
customer_orders and ordered_items are untouched. -/
def delete_customer (db : DB) (id : Nat) : Except ApiError Unit × DB :=
  match findCustomerById db id with
  | none => (.error .customerNotFound, db)
  | some _ =>
    (.ok (), { db with customers := db.customers.filter (fun r => r.id ≠ id) })

/-- POST /menu-items: plain INSERT; a duplicate dish name violates the
UNIQUE constraint and the store error propagates unhandled. -/
def create_menu_item (db : DB) (item : MenuItem) : Except ApiError Nat × DB :=
  if db.menu_items.any (fun m => m.dish_name = item.dish_name) then
    (.error .dishNameConflict, db)
  else
    (.ok db.nextMenuItemId,
     { db with
        menu_items := db.menu_items ++
          [⟨db.nextMenuItemId, item.dish_name, item.cost⟩],
        nextMenuItemId := db.nextMenuItemId + 1 })

/-- GET /menu-items: 404 when absent, else the row. -/
def get_menu_item (db : DB) (id : Nat) : Except ApiError MenuRow :=
  match findMenuById db id with
  | none => .error .menuItemNotFoundById
  | some r => .ok r

/-- PUT /menu-items: 404 when absent, else overwrite dish_name and cost.
The UNIQUE constraint on dish_name is enforced by the store on UPDATE
too: a dish name held by a different row raises IntegrityError, which
this handler does not catch, and nothing is written. -/
def update_menu_item (db : DB) (id : Nat) (item : MenuItem) :
    Except ApiError Unit × DB :=
  match findMenuById db id with
  | none => (.error .menuItemNotFoundById, db)
  | some _ =>
    if db.menu_items.any (fun m =>
        m.id ≠ id ∧ m.dish_name = item.dish_name) then
      (.error .dishNameConflict, db)
    else
      (.ok (),
       { db with menu_items := db.menu_items.map (fun m =>
          if m.id = id then
            { m with dish_name := item.dish_name, cost := item.cost }
          else m) })

/-- DELETE /menu-items: 404 when absent, else remove the row.  No cascade:
ordered_items rows referencing it stay behind, dangling. -/
def delete_menu_item (db : DB) (id : Nat) : Except ApiError Unit × DB :=
  match findMenuById db id with
  | none => (.error .menuItemNotFoundById, db)
  | some _ =>
    (.ok (), { db with menu_items := db.menu_items.filter (fun m => m.id ≠ id) })

/-- The per-item loop shared by POST /orders and PUT /orders.  For each
requested item: look the menu row up by dish name; when absent, raise 404
at once, keeping all line rows already inserted; when found, append a
reconciliation note if the client-supplied cost differs from the stored
cost, then insert the line row with the next autoincrement id. -/
def insertOrderItems : DB → Nat → List MenuItem → List ReconNote →
    Except ApiError (List ReconNote) × DB
  | db, _, [], notes => (.ok notes, db)
  | db, oid, it :: rest, notes =>
    match menuLookup db.menu_items it.dish_name with
    | none => (.error (.menuItemNotFound it.dish_name), db)
    | some m =>
      insertOrderItems
        { db with
            ordered_items := db.ordered_items ++ [⟨db.nextLineId, oid, m.id⟩],
            nextLineId := db.nextLineId + 1 }
        oid rest
        (if it.cost ≠ m.cost then
          notes ++ [⟨it.dish_name, it.cost, m.cost⟩]
         else notes)

/-- POST /orders.  now is the server clock read by strftime at the header
insert.  Steps: customer existence check (404, nothing written), header
insert, then the per-item loop; the header insert is never rolled back
when the loop raises. -/
def create_order (db : DB) (now : Nat) (o : OrderDetails) :
    Except ApiError OrderWriteResponse × DB :=
  match findCustomerById db o.customer_id with
  | none => (.error .customerNotFound, db)
  | some _ =>
    let oid := db.nextOrderId
    let db1 : DB :=
      { db with
          customer_orders := db.customer_orders ++
            [⟨oid, o.customer_id, o.order_notes.getD "", now⟩],
          nextOrderId := db.nextOrderId + 1 }
    match insertOrderItems db1 oid o.items [] with
    | (.error e, db2) => (.error e, db2)
    | (.ok notes, db2) =>
      (.ok ⟨oid, if notes.isEmpty then none else some notes⟩, db2)

/-- The items array of GET /orders: inner join of the order lines with
the menu_items table on the current menu-item id, each matching menu row
contributing its dish name and current cost. -/
def orderItemsJoin (db : DB) (oid : Nat) : List OrderItemView :=
  (db.ordered_items.filter (fun l => l.order_id = oid)).flatMap
    (fun l => (db.menu_items.filter (fun m => m.id = l.menu_item_id)).map
      (fun m => ⟨m.dish_name, m.cost⟩))

/-- GET /orders: 404 when the header is absent, else the header fields
plus the joined items. -/
def get_order (db : DB) (id : Nat) : Except ApiError OrderView :=
  match db.customer_orders.find? (fun r => r.id = id) with
  | none => .error .orderNotFound
  | some r => .ok ⟨r.id, r.customer_id, r.order_notes, orderItemsJoin db id⟩

/-- PUT /orders: 404 when the order is absent; else overwrite the header
customer_id and notes (order_time untouched), delete every line row of
the order, then re-run the per-item loop.  No customer existence check. -/
def update_order (db : DB) (id : Nat) (o : OrderDetails) :
    Except ApiError OrderWriteResponse × DB :=
  match findOrderById db id with
  | none => (.error .orderNotFound, db)
  | some _ =>
    let db1 : DB :=
      { db with customer_orders := db.customer_orders.map (fun r =>
          if r.id = id then
            { r with customer_id := o.customer_id,
                     order_notes := o.order_notes.getD "" }
          else r) }
    let db2 : DB :=
      { db1 with ordered_items :=
          db1.ordered_items.filter (fun l => l.order_id ≠ id) }
    match insertOrderItems db2 id o.items [] with
    | (.error e, db3) => (.error e, db3)
    | (.ok notes, db3) =>
      (.ok ⟨id, if notes.isEmpty then none else some notes⟩, db3)

/-- DELETE /orders: 404 when absent, else delete the line rows then the
header. -/
def delete_order (db : DB) (id : Nat) : Except ApiError Unit × DB :=
  match findOrderById db id with
  | none => (.error .orderNotFound, db)
  | some _ =>
    (.ok (),
     { db with
        ordered_items := db.ordered_items.filter (fun l => l.order_id ≠ id),
        customer_orders := db.customer_orders.filter (fun r => r.id ≠ id) })

/-! Specification helpers: state-free descriptions of what the per-item
loop returns and writes, proved equal to insertOrderItems below. -/

/-- The outcome of the per-item loop, computed by recursion over the item
list against the fixed menu table. -/
def insertResult (menu : List MenuRow) : List MenuItem → List ReconNote →
    Except ApiError (List ReconNote)
  | [], notes => .ok notes
  | it :: rest, notes =>
    match menuLookup menu it.dish_name with
    | none => .error (.menuItemNotFound it.dish_name)
    | some m =>
      insertResult menu rest
        (if it.cost ≠ m.cost then notes ++ [⟨it.dish_name, it.cost, m.cost⟩]
         else notes)

/-- The line rows the per-item loop inserts for order oid starting from
autoincrement id k: one row per item, stopping at the first item whose
dish name is not on the menu. -/
def linesFor (menu : List MenuRow) (oid : Nat) :
    List MenuItem → Nat → List LineRow
  | [], _ => []
  | it :: rest, k =>
    match menuLookup menu it.dish_name with
    | none => []
    | some m => ⟨k, oid, m.id⟩ :: linesFor menu oid rest (k + 1)

/-- Whether a requested item has a client-supplied cost differing from the
stored cost of the menu row its dish name resolves to. -/
def mismatch (menu : List MenuRow) (it : MenuItem) : Bool :=
  match menuLookup menu it.dish_name with
  | none => false
  | some m => it.cost ≠ m.cost

/-- The reconciliation note generated for a mismatched item. -/
def noteOf (menu : List MenuRow) (it : MenuItem) : ReconNote :=
  match menuLookup menu it.dish_name with
  | none => ⟨it.dish_name, it.cost, it.cost⟩
  | some m => ⟨it.dish_name, it.cost, m.cost⟩

/-- All reconciliation notes for an item list: one note per item whose
client-supplied cost differs from the stored cost, in list order. -/
def notesFor (menu : List MenuRow) (items : List MenuItem) : List ReconNote :=
  (items.filter (mismatch menu)).map (noteOf menu)

/-- What GET /orders shows for one requested item after a successful
write: the dish name together with the cost currently stored on the menu
row the dish name resolves to (the canonical cost, never the
client-supplied one). -/
def canonView (menu : List MenuRow) (it : MenuItem) : OrderItemView :=
  ⟨it.dish_name,
   match menuLookup menu it.dish_name with
   | none => it.cost
   | some m => m.cost⟩

/-- The (id, order_time) projection of the customer_orders table. -/
def orderTimes (db : DB) : List (Nat × Nat) :=
  db.customer_orders.map (fun r => (r.id, r.order_time))

/-- The per-item loop equals its state-free description: the result is
insertResult over the initial menu table, and the state change is exactly
the appended linesFor rows plus the advanced line counter. -/
theorem insertOrderItems_eq (items : List MenuItem) :
    ∀ (db : DB) (oid : Nat) (notes : List ReconNote),
    insertOrderItems db oid items notes =
      (insertResult db.menu_items items notes,
       { db with
          ordered_items := db.ordered_items ++
            linesFor db.menu_items oid items db.nextLineId,
          nextLineId := db.nextLineId +
            (linesFor db.menu_items oid items db.nextLineId).length }) := by
  induction items with
  | nil =>
    intro db oid notes
    simp [insertOrderItems, insertResult, linesFor]
  | cons it rest ih =>
    intro db oid notes
    cases h : menuLookup db.menu_items it.dish_name with
    | none =>
      simp [insertOrderItems, insertResult, linesFor, h]
    | some m =>
      simp only [insertOrderItems, insertResult, linesFor, h]
      rw [ih]
      simp [DB.mk.injEq, List.append_assoc, Nat.add_assoc, Nat.add_comm,
        Nat.add_left_comm]

/-- When every dish name resolves, the loop result is ok, carrying the
accumulated notes followed by one note per mismatched item. -/
theorem insertResult_ok (menu : List MenuRow) :
    ∀ (items : List MenuItem) (notes : List ReconNote),
    (∀ it ∈ items, (menuLookup menu it.dish_name).isSome) →
    insertResult menu items notes = .ok (notes ++ notesFor menu items) := by
  intro items
  induction items with
  | nil => intro notes hall; simp [insertResult, notesFor]
  | cons it rest ih =>
    intro notes hall
    have hit : (menuLookup menu it.dish_name).isSome := hall it (by simp)
    cases h : menuLookup menu it.dish_name with
    | none => rw [h] at hit; simp at hit
    | some m =>
      have hrest : ∀ x ∈ rest, (menuLookup menu x.dish_name).isSome :=
        fun x hx => hall x (by simp [hx])
      simp only [insertResult, h]
      rw [ih _ hrest]
      by_cases hc : it.cost = m.cost
      · simp [notesFor, mismatch, h, hc]
      · simp [notesFor, mismatch, noteOf, h, hc]

/-- When every dish name before some missing one resolves, the loop
result is the 404 for the missing dish name. -/
theorem insertResult_fail (menu : List MenuRow) (bad : MenuItem)
    (hbad : menuLookup menu bad.dish_name = none) :
    ∀ (pre rest : List MenuItem) (notes : List ReconNote),
    (∀ it ∈ pre, (menuLookup menu it.dish_name).isSome) →
    insertResult menu (pre ++ bad :: rest) notes =
      .error (.menuItemNotFound bad.dish_name) := by
  intro pre
  induction pre with
  | nil => intro rest notes _; simp [insertResult, hbad]
  | cons it p ih =>
    intro rest notes hall
    have hit : (menuLookup menu it.dish_name).isSome := hall it (by simp)
    cases h : menuLookup menu it.dish_name with
    | none => rw [h] at hit; simp at hit
    | some m =>
      simp only [List.cons_append, insertResult, h]
      exact ih rest _ (fun x hx => hall x (by simp [hx]))

/-- The rows inserted for a list whose first missing dish name is bad are
exactly the rows for the resolving prefix. -/
theorem linesFor_pre (menu : List MenuRow) (oid : Nat) (bad : MenuItem)
    (hbad : menuLookup menu bad.dish_name = none) :
    ∀ (pre rest : List MenuItem) (k : Nat),
    (∀ it ∈ pre, (menuLookup menu it.dish_name).isSome) →
    linesFor menu oid (pre ++ bad :: rest) k = linesFor menu oid pre k := by
  intro pre
  induction pre with
  | nil => intro rest k _; simp [linesFor, hbad]
  | cons it p ih =>
    intro rest k hall
    have hit : (menuLookup menu it.dish_name).isSome := hall it (by simp)
    cases h : menuLookup menu it.dish_name with
    | none => rw [h] at hit; simp at hit
    | some m =>
      simp only [List.cons_append, linesFor, h]
      exact congrArg (List.cons _) (ih rest (k + 1) (fun x hx => hall x (by simp [hx])))

/-- Every row inserted by the loop carries the target order id. -/
theorem linesFor_order_id (menu : List MenuRow) (oid : Nat) :
    ∀ (items : List MenuItem) (k : Nat),
    ∀ l ∈ linesFor menu oid items k, l.order_id = oid := by
  intro items
  induction items with
  | nil => intro k l hl; simp [linesFor] at hl
  | cons it rest ih =>
    intro k l hl
    cases h : menuLookup menu it.dish_name with
    | none => rw [linesFor, h] at hl; simp at hl
    | some m =>
      rw [linesFor, h] at hl
      rcases List.mem_cons.mp hl with h1 | h1
      · rw [h1]
      · exact ih (k + 1) l h1

/-- When every dish name resolves, the loop inserts one row per item,
each referencing the menu row its dish name resolves to. -/
theorem linesFor_forall₂ (menu : List MenuRow) (oid : Nat) :
    ∀ (items : List MenuItem) (k : Nat),
    (∀ it ∈ items, (menuLookup menu it.dish_name).isSome) →
    List.Forall₂ (fun (it : MenuItem) (l : LineRow) =>
        l.order_id = oid ∧
        ∃ m : MenuRow, menuLookup menu it.dish_name = some m ∧
          l.menu_item_id = m.id)
      items (linesFor menu oid items k) := by
  intro items
  induction items with
  | nil => intro k _; simp [linesFor]
  | cons it rest ih =>
    intro k hall
    have hit : (menuLookup menu it.dish_name).isSome := hall it (by simp)
    cases h : menuLookup menu it.dish_name with
    | none => rw [h] at hit; simp at hit
    | some m =>
      rw [linesFor, h]
      exact List.Forall₂.cons ⟨rfl, m, h, rfl⟩
        (ih (k + 1) (fun x hx => hall x (by simp [hx])))

/-- With pairwise distinct menu ids, filtering the menu table by an id
yields exactly what find? by that id yields. -/
theorem filter_id_eq_find_toList (menu : List MenuRow) (c : Nat)
    (hnd : (menu.map (fun m => m.id)).Nodup) :
    menu.filter (fun m => m.id = c) =
      (menu.find? (fun m => m.id = c)).toList := by
  induction menu with
  | nil => simp
  | cons a rest ih =>
    rw [List.map_cons, List.nodup_cons] at hnd
    by_cases h : a.id = c
    · have hrest : rest.filter (fun m => m.id = c) = [] := by
        rw [List.filter_eq_nil_iff]
        intro x hx
        simp only [decide_eq_true_eq]
        intro hxc
        exact hnd.1 (by rw [← h] at hxc; exact hxc ▸ List.mem_map_of_mem _ hx)
      simp [List.filter_cons, List.find?_cons, h, hrest]
    · simp [List.filter_cons, List.find?_cons, h, ih hnd.2]

/-- With pairwise distinct menu ids, filtering by the id of a row yields
that row alone. -/
theorem filter_id_eq_singleton (menu : List MenuRow)
    (hnd : (menu.map (fun m => m.id)).Nodup) (m : MenuRow) (hm : m ∈ menu) :
    menu.filter (fun x => x.id = m.id) = [m] := by
  rw [filter_id_eq_find_toList menu m.id hnd]
  have hmem : m ∈ menu.filter (fun x => x.id = m.id) := by
    rw [List.mem_filter]; exact ⟨hm, by simp⟩
  rw [filter_id_eq_find_toList menu m.id hnd] at hmem
  cases h : menu.find? (fun x => x.id = m.id) with
  | none => rw [h] at hmem; simp at hmem
  | some x => rw [h] at hmem; simp at hmem; simp [hmem]

/-- A row returned by the by-name lookup carries that dish name and
belongs to the menu table. -/
theorem menuLookup_some (menu : List MenuRow) (name : String) (m : MenuRow)
    (h : menuLookup menu name = some m) :
    m ∈ menu ∧ m.dish_name = name := by
  refine ⟨List.mem_of_find?_eq_some h, ?_⟩
  have := List.find?_some h
  simpa using this

/-- With pairwise distinct menu ids and every dish name resolving,
joining the inserted rows back to the menu table shows each item with its
canonical cost. -/
theorem flatMap_linesFor (menu : List MenuRow) (oid : Nat)
    (hnd : (menu.map (fun m => m.id)).Nodup) :
    ∀ (items : List MenuItem) (k : Nat),
    (∀ it ∈ items, (menuLookup menu it.dish_name).isSome) →
    (linesFor menu oid items k).flatMap (fun l =>
        (menu.filter (fun m => m.id = l.menu_item_id)).map
          (fun m => (⟨m.dish_name, m.cost⟩ : OrderItemView))) =
      items.map (canonView menu) := by
  intro items
  induction items with
  | nil => intro k _; simp [linesFor]
  | cons it rest ih =>
    intro k hall
    have hit : (menuLookup menu it.dish_name).isSome := hall it (by simp)
    cases h : menuLookup menu it.dish_name with
    | none => rw [h] at hit; simp at hit
    | some m =>
      have hm := menuLookup_some menu it.dish_name m h
      rw [linesFor, h, List.flatMap_cons,
        ih (k + 1) (fun x hx => hall x (by simp [hx]))]
      simp only [filter_id_eq_singleton menu hnd m hm.1]
      simp [canonView, h, hm.2]

/-! Concrete states used to instantiate the theorems. -/

/-- A sample database: one customer, two menu items, one order with one
line row, plus one line row left dangling by a menu-item deletion. -/
def sampleDB : DB where
  customers := [⟨1, "Ada", "555"⟩]
  menu_items := [⟨1, "Dosa", 5⟩, ⟨2, "Idli", 3⟩]
  customer_orders := [⟨1, 1, "table 4", 1000⟩]
  ordered_items := [⟨1, 1, 1⟩, ⟨2, 1, 9⟩]
  nextCustomerId := 2
  nextMenuItemId := 3
  nextOrderId := 2
  nextLineId := 3

/-- C3: Create Order with a customer id referencing no existing customer
fails with a not-found error and persists nothing: the database is
returned unchanged, so no order header row and no line item rows are
created. -/
theorem create_order_unknown_customer_persists_nothing
    (db : DB) (now : Nat) (o : OrderDetails)
    (hc : findCustomerById db o.customer_id = none) :
    create_order db now o = (.error .customerNotFound, db) := by
  simp [create_order, hc]

/-- Witness for C3 on the sample database with an absent customer id. -/
theorem create_order_unknown_customer_witness :
    create_order sampleDB 1234 ⟨99, [⟨"Dosa", 5⟩], none⟩ =
      (.error .customerNotFound, sampleDB) :=
  create_order_unknown_customer_persists_nothing sampleDB 1234
    ⟨99, [⟨"Dosa", 5⟩], none⟩ (by decide)

/-- C1: Create Order with an existing customer but an item list holding a
dish name matching no menu item fails with a not-found error, yet the
order header inserted before the lookup stays persisted, together with
one line row per item processed before the failing one, and no line rows
for the failing item or any later item. -/
theorem create_order_missing_dish_keeps_header
    (db : DB) (now : Nat) (o : OrderDetails)
    (pre : List MenuItem) (bad : MenuItem) (rest : List MenuItem)
    (cust : CustomerRow)
    (hc : findCustomerById db o.customer_id = some cust)
    (hsplit : o.items = pre ++ bad :: rest)
    (hpre : ∀ it ∈ pre, (menuLookup db.menu_items it.dish_name).isSome)
    (hbad : menuLookup db.menu_items bad.dish_name = none) :
    ∃ db2 : DB,
      create_order db now o =
        (.error (.menuItemNotFound bad.dish_name), db2) ∧
      db2.customer_orders = db.customer_orders ++
        [⟨db.nextOrderId, o.customer_id, o.order_notes.getD "", now⟩] ∧
      db2.ordered_items = db.ordered_items ++
        linesFor db.menu_items db.nextOrderId pre db.nextLineId ∧
      List.Forall₂ (fun (it : MenuItem) (l : LineRow) =>
          l.order_id = db.nextOrderId ∧
          ∃ m : MenuRow, menuLookup db.menu_items it.dish_name = some m ∧
            l.menu_item_id = m.id)
        pre (linesFor db.menu_items db.nextOrderId pre db.nextLineId) := by
  refine ⟨{ db with
      customer_orders := db.customer_orders ++
        [⟨db.nextOrderId, o.customer_id, o.order_notes.getD "", now⟩],
      nextOrderId := db.nextOrderId + 1,
      ordered_items := db.ordered_items ++
        linesFor db.menu_items db.nextOrderId pre db.nextLineId,
      nextLineId := db.nextLineId +
        (linesFor db.menu_items db.nextOrderId pre db.nextLineId).length },
    ?_, rfl, rfl, linesFor_forall₂ _ _ pre db.nextLineId hpre⟩
  unfold create_order
  rw [hc, hsplit]
  simp only [insertOrderItems_eq]
  simp only [insertResult_fail db.menu_items bad hbad pre rest [] hpre,
    linesFor_pre db.menu_items db.nextOrderId bad hbad pre rest _ hpre]

/-- Witness for C1: item Vada is not on the sample menu; the header and
the Dosa line persist. -/
theorem create_order_missing_dish_witness :
    ∃ db2 : DB,
      create_order sampleDB 1234
          ⟨1, [⟨"Dosa", 4⟩, ⟨"Vada", 2⟩], some "rush"⟩ =
        (.error (.menuItemNotFound "Vada"), db2) ∧
      db2.customer_orders = sampleDB.customer_orders ++
        [⟨2, 1, "rush", 1234⟩] ∧
      db2.ordered_items = sampleDB.ordered_items ++ [⟨3, 2, 1⟩] := by
  obtain ⟨db2, h1, h2, h3, _⟩ :=
    create_order_missing_dish_keeps_header sampleDB 1234
      ⟨1, [⟨"Dosa", 4⟩, ⟨"Vada", 2⟩], some "rush"⟩
      [⟨"Dosa", 4⟩] ⟨"Vada", 2⟩ [] ⟨1, "Ada", "555"⟩ (by decide) rfl
      (by decide) (by decide)
  exact ⟨db2, h1, h2, by rw [h3]; decide⟩

/-- C2: when the customer exists and every dish name resolves, Create
Order succeeds even when client-supplied costs differ from the stored
ones; it returns exactly one reconciliation note per mismatched item,
includes price_changes exactly when at least one note was generated, and
a subsequent Read Order shows each item with the canonical cost. -/
theorem create_order_price_notes
    (db : DB) (now : Nat) (o : OrderDetails) (cust : CustomerRow)
    (hc : findCustomerById db o.customer_id = some cust)
    (hall : ∀ it ∈ o.items, (menuLookup db.menu_items it.dish_name).isSome)
    (hnd : (db.menu_items.map (fun m => m.id)).Nodup)
    (hfresh1 : ∀ r ∈ db.customer_orders, r.id ≠ db.nextOrderId)
    (hfresh2 : ∀ l ∈ db.ordered_items, l.order_id ≠ db.nextOrderId) :
    ∃ db2 : DB,
      create_order db now o =
        (.ok ⟨db.nextOrderId,
          if (notesFor db.menu_items o.items).isEmpty then none
          else some (notesFor db.menu_items o.items)⟩, db2) ∧
      notesFor db.menu_items o.items =
        (o.items.filter (mismatch db.menu_items)).map (noteOf db.menu_items) ∧
      ((if (notesFor db.menu_items o.items).isEmpty then none
          else some (notesFor db.menu_items o.items)) ≠
            (none : Option (List ReconNote)) ↔
        ∃ it ∈ o.items, mismatch db.menu_items it) ∧
      get_order db2 db.nextOrderId =
        .ok ⟨db.nextOrderId, o.customer_id, o.order_notes.getD "",
          o.items.map (canonView db.menu_items)⟩ := by
  refine ⟨{ db with
      customer_orders := db.customer_orders ++
        [⟨db.nextOrderId, o.customer_id, o.order_notes.getD "", now⟩],
      nextOrderId := db.nextOrderId + 1,
      ordered_items := db.ordered_items ++
        linesFor db.menu_items db.nextOrderId o.items db.nextLineId,
      nextLineId := db.nextLineId +
        (linesFor db.menu_items db.nextOrderId o.items db.nextLineId).length },
    ?_, rfl, ?_, ?_⟩
  · unfold create_order
    rw [hc]
    simp only [insertOrderItems_eq]
    simp only [insertResult_ok db.menu_items o.items [] hall, List.nil_append]
  · by_cases h : (notesFor db.menu_items o.items).isEmpty
    · simp only [h, if_pos]
      rw [List.isEmpty_iff] at h
      simp only [notesFor, List.map_eq_nil_iff, List.filter_eq_nil_iff] at h
      simp only [ne_eq, not_true_eq_false, false_iff]
      rintro ⟨it, hit, hmis⟩
      exact absurd hmis (by simpa using h it hit)
    · rw [if_neg (by simp [h])]
      simp only [ne_eq, reduceCtorEq, not_false_eq_true, true_iff]
      have h2 : notesFor db.menu_items o.items ≠ [] := by
        intro hnil; rw [hnil] at h; simp at h
      simp only [notesFor, ne_eq, List.map_eq_nil_iff,
        List.filter_eq_nil_iff] at h2
      push_neg at h2
      obtain ⟨it, hit, hmis⟩ := h2
      exact ⟨it, hit, by simpa using hmis⟩
  · unfold get_order
    have hnone : db.customer_orders.find?
        (fun r => r.id = db.nextOrderId) = none := by
      rw [List.find?_eq_none]
      intro r hr
      simpa using hfresh1 r hr
    have hfind :
        (db.customer_orders ++
          [(⟨db.nextOrderId, o.customer_id, o.order_notes.getD "", now⟩ :
            OrderRow)]).find? (fun r => r.id = db.nextOrderId) =
          some ⟨db.nextOrderId, o.customer_id, o.order_notes.getD "", now⟩ := by
      rw [List.find?_append, hnone]
      simp
    simp only [hfind]
    have hjoin : orderItemsJoin
        { db with
          customer_orders := db.customer_orders ++
            [⟨db.nextOrderId, o.customer_id, o.order_notes.getD "", now⟩],
          nextOrderId := db.nextOrderId + 1,
          ordered_items := db.ordered_items ++
            linesFor db.menu_items db.nextOrderId o.items db.nextLineId,
          nextLineId := db.nextLineId +
            (linesFor db.menu_items db.nextOrderId o.items db.nextLineId).length }
        db.nextOrderId = o.items.map (canonView db.menu_items) := by
      unfold orderItemsJoin
      simp only [List.filter_append]
      have h1 : db.ordered_items.filter
          (fun l => l.order_id = db.nextOrderId) = [] := by
        rw [List.filter_eq_nil_iff]
        intro l hl
        simpa using hfresh2 l hl
      have h2 : (linesFor db.menu_items db.nextOrderId o.items
            db.nextLineId).filter (fun l => l.order_id = db.nextOrderId) =
          linesFor db.menu_items db.nextOrderId o.items db.nextLineId := by
        rw [List.filter_eq_self]
        intro l hl
        simpa using linesFor_order_id db.menu_items db.nextOrderId o.items
          db.nextLineId l hl
      rw [h1, h2, List.nil_append]
      exact flatMap_linesFor db.menu_items db.nextOrderId hnd o.items
        db.nextLineId hall
    rw [hjoin]

/-- Witness for C2: Dosa ordered at a stale cost 4 against stored cost 5,
Idli at the stored cost 3; one note is generated and the read-back shows
the canonical costs. -/
theorem create_order_price_notes_witness :
    ∃ db2 : DB,
      create_order sampleDB 1234
          ⟨1, [⟨"Dosa", 4⟩, ⟨"Idli", 3⟩], none⟩ =
        (.ok ⟨2, some [⟨"Dosa", 4, 5⟩]⟩, db2) ∧
      get_order db2 2 =
        .ok ⟨2, 1, "", [⟨"Dosa", 5⟩, ⟨"Idli", 3⟩]⟩ := by
  obtain ⟨db2, h1, _, _, h4⟩ :=
    create_order_price_notes sampleDB 1234
      ⟨1, [⟨"Dosa", 4⟩, ⟨"Idli", 3⟩], none⟩ ⟨1, "Ada", "555"⟩
      (by decide) (by decide) (by decide) (by decide) (by decide)
  exact ⟨db2, h1.trans (congrArg (fun r => (r, db2)) (by decide)),
    h4.trans (by decide)⟩

/-- A pointwise-equal function under flatMap yields the same list. -/
theorem flatMap_congr_left {α β : Type} (l : List α) (f g : α → List β)
    (h : ∀ x ∈ l, f x = g x) : l.flatMap f = l.flatMap g := by
  induction l with
  | nil => rfl
  | cons a t ih =>
    simp only [List.flatMap_cons]
    rw [h a (by simp), ih (fun x hx => h x (by simp [hx]))]

/-- Updating the menu row with a given id commutes with filtering the
menu table by any id, because the update keeps every id. -/
theorem filter_menu_update (menu : List MenuRow) (mid : Nat)
    (item : MenuItem) (c : Nat) :
    (menu.map (fun m => if m.id = mid then
        { m with dish_name := item.dish_name, cost := item.cost }
      else m)).filter (fun x => x.id = c) =
    (menu.filter (fun x => x.id = c)).map (fun m => if m.id = mid then
        { m with dish_name := item.dish_name, cost := item.cost }
      else m) := by
  rw [List.filter_map]
  congr 1
  apply List.filter_congr
  intro m _
  by_cases h : m.id = mid <;> simp [h]

/-- C4: line items store no price.  After a menu-item cost update, a Read
Order of any existing order shows, for every line referencing the updated
menu item, the new dish name and cost, and for every other line the
unchanged join result, never the cost that was stored at order-creation
time.  The submitted dish name must not collide with a different menu
row, else the store's UNIQUE constraint rejects the update; a plain cost
update resubmitting the row's own dish name always satisfies this. -/
theorem menu_cost_update_reflected_in_read
    (db : DB) (mid : Nat) (item : MenuItem) (m0 : MenuRow)
    (hnd : (db.menu_items.map (fun m => m.id)).Nodup)
    (hm : findMenuById db mid = some m0)
    (hfree : ∀ m ∈ db.menu_items, m.id ≠ mid → m.dish_name ≠ item.dish_name)
    (oid : Nat) (r : OrderRow)
    (ho : db.customer_orders.find? (fun x => x.id = oid) = some r) :
    ∃ db2 : DB,
      update_menu_item db mid item = (.ok (), db2) ∧
      get_order db2 oid = .ok ⟨r.id, r.customer_id, r.order_notes,
        (db.ordered_items.filter (fun l => l.order_id = oid)).flatMap
          (fun l =>
            if l.menu_item_id = mid then
              [⟨item.dish_name, item.cost⟩]
            else
              (db.menu_items.filter (fun m => m.id = l.menu_item_id)).map
                (fun m => ⟨m.dish_name, m.cost⟩))⟩ := by
  have hmem : m0 ∈ db.menu_items := List.mem_of_find?_eq_some hm
  have hid : m0.id = mid := by
    have := List.find?_some hm
    simpa using this
  have hany : (db.menu_items.any fun m =>
      m.id ≠ mid ∧ m.dish_name = item.dish_name) = false := by
    rw [List.any_eq_false]
    intro m hmm
    simp only [decide_eq_true_eq]
    rintro ⟨hne, hname⟩
    exact hfree m hmm hne hname
  refine ⟨{ db with menu_items := db.menu_items.map (fun m =>
      if m.id = mid then
        { m with dish_name := item.dish_name, cost := item.cost }
      else m) }, ?_, ?_⟩
  · simp only [update_menu_item, hm]
    rw [if_neg (by rw [hany]; simp)]
  · unfold get_order
    simp only [ho]
    unfold orderItemsJoin
    simp only []
    congr 2
    apply flatMap_congr_left
    intro l hl
    rw [filter_menu_update]
    by_cases hc : l.menu_item_id = mid
    · rw [if_pos hc, hc, ← hid, filter_id_eq_singleton db.menu_items hnd m0 hmem]
      simp [hid]
    · rw [if_neg hc]
      have hfix : ∀ m ∈ db.menu_items.filter
          (fun x => x.id = l.menu_item_id),
          (if m.id = mid then
            { m with dish_name := item.dish_name, cost := item.cost }
          else m) = m := by
        intro m hmf
        rw [List.mem_filter] at hmf
        have : m.id = l.menu_item_id := by simpa using hmf.2
        rw [if_neg (by rw [this]; exact hc)]
      conv_rhs => rw [show db.menu_items.filter (fun x => x.id = l.menu_item_id)
        = (db.menu_items.filter (fun x => x.id = l.menu_item_id)).map
          (fun m => if m.id = mid then
            { m with dish_name := item.dish_name, cost := item.cost }
          else m) from by
          conv_lhs => rw [← List.map_id (db.menu_items.filter
            (fun x => x.id = l.menu_item_id))]
          exact (List.map_congr_left hfix).symm]

/-- Witness for C4: the Dosa cost is raised from 5 to 9; reading the
sample order afterwards shows the Dosa line at 9 and drops the dangling
line. -/
theorem menu_cost_update_witness :
    ∃ db2 : DB,
      update_menu_item sampleDB 1 ⟨"Dosa", 9⟩ = (.ok (), db2) ∧
      get_order db2 1 = .ok ⟨1, 1, "table 4", [⟨"Dosa", 9⟩]⟩ := by
  obtain ⟨db2, h1, h2⟩ :=
    menu_cost_update_reflected_in_read sampleDB 1 ⟨"Dosa", 9⟩ ⟨1, "Dosa", 5⟩
      (by decide) (by decide) (by decide) 1 ⟨1, 1, "table 4", 1000⟩
      (by decide)
  exact ⟨db2, h1, h2.trans (by decide)⟩

/-- C5: Update Order deletes all of the order's line rows before
validating the new items, so a dish name matching no menu item fails with
a not-found error and leaves the order with none of its original line
rows — only the rows for the new items processed before the failure —
while the header's customer id and notes have already been overwritten. -/
theorem update_order_missing_dish_drops_lines
    (db : DB) (oid : Nat) (o : OrderDetails) (r : OrderRow)
    (pre : List MenuItem) (bad : MenuItem) (rest : List MenuItem)
    (ho : findOrderById db oid = some r)
    (hsplit : o.items = pre ++ bad :: rest)
    (hpre : ∀ it ∈ pre, (menuLookup db.menu_items it.dish_name).isSome)
    (hbad : menuLookup db.menu_items bad.dish_name = none) :
    ∃ db3 : DB,
      update_order db oid o =
        (.error (.menuItemNotFound bad.dish_name), db3) ∧
      db3.customer_orders = db.customer_orders.map (fun x =>
        if x.id = oid then
          { x with customer_id := o.customer_id,
                   order_notes := o.order_notes.getD "" }
        else x) ∧
      db3.ordered_items =
        db.ordered_items.filter (fun l => l.order_id ≠ oid) ++
          linesFor db.menu_items oid pre db.nextLineId ∧
      List.Forall₂ (fun (it : MenuItem) (l : LineRow) =>
          l.order_id = oid ∧
          ∃ m : MenuRow, menuLookup db.menu_items it.dish_name = some m ∧
            l.menu_item_id = m.id)
        pre (linesFor db.menu_items oid pre db.nextLineId) := by
  refine ⟨{ db with
      customer_orders := db.customer_orders.map (fun x =>
        if x.id = oid then
          { x with customer_id := o.customer_id,
                   order_notes := o.order_notes.getD "" }
        else x),
      ordered_items :=
        db.ordered_items.filter (fun l => l.order_id ≠ oid) ++
          linesFor db.menu_items oid pre db.nextLineId,
      nextLineId := db.nextLineId +
        (linesFor db.menu_items oid pre db.nextLineId).length },
    ?_, rfl, rfl, linesFor_forall₂ _ _ pre db.nextLineId hpre⟩
  unfold update_order
  rw [ho, hsplit]
  simp only [insertOrderItems_eq]
  simp only [insertResult_fail db.menu_items bad hbad pre rest [] hpre,
    linesFor_pre db.menu_items oid bad hbad pre rest _ hpre]

/-- Witness for C5: replacing the sample order's items with Idli then the
absent Vada fails, the two original line rows are gone, only the new Idli
row remains, and the header notes are already overwritten. -/
theorem update_order_missing_dish_witness :
    ∃ db3 : DB,
      update_order sampleDB 1 ⟨1, [⟨"Idli", 3⟩, ⟨"Vada", 1⟩], some "redo"⟩ =
        (.error (.menuItemNotFound "Vada"), db3) ∧
      db3.customer_orders = [⟨1, 1, "redo", 1000⟩] ∧
      db3.ordered_items = [⟨3, 1, 2⟩] := by
  obtain ⟨db3, h1, h2, h3, _⟩ :=
    update_order_missing_dish_drops_lines sampleDB 1
      ⟨1, [⟨"Idli", 3⟩, ⟨"Vada", 1⟩], some "redo"⟩ ⟨1, 1, "table 4", 1000⟩
      [⟨"Idli", 3⟩] ⟨"Vada", 1⟩ [] (by decide) rfl (by decide) (by decide)
  exact ⟨db3, h1, h2.trans (by decide), h3.trans (by decide)⟩

/-- C6: Order.order_time is immutable once set.  Update Order overwrites
only the header's customer id and notes, preserving the (id, order_time)
projection of the orders table; every customer and menu-item operation
leaves the orders table untouched; Create Order only appends a new
header; Delete Order only removes the deleted header, leaving every
surviving row intact.  The read endpoints return no new state at all. -/
theorem order_time_immutable :
    (∀ (db : DB) (oid : Nat) (o : OrderDetails),
      orderTimes (update_order db oid o).2 = orderTimes db) ∧
    (∀ (db : DB) (c : Customer),
      (create_customer db c).2.customer_orders = db.customer_orders) ∧
    (∀ (db : DB) (i : Nat) (c : Customer),
      (update_customer db i c).2.customer_orders = db.customer_orders) ∧
    (∀ (db : DB) (i : Nat),
      (delete_customer db i).2.customer_orders = db.customer_orders) ∧
    (∀ (db : DB) (item : MenuItem),
      (create_menu_item db item).2.customer_orders = db.customer_orders) ∧
    (∀ (db : DB) (i : Nat) (item : MenuItem),
      (update_menu_item db i item).2.customer_orders = db.customer_orders) ∧
    (∀ (db : DB) (i : Nat),
      (delete_menu_item db i).2.customer_orders = db.customer_orders) ∧
    (∀ (db : DB) (now : Nat) (o : OrderDetails),
      (create_order db now o).2.customer_orders =
        db.customer_orders ++
          (match findCustomerById db o.customer_id with
           | none => []
           | some _ =>
             [⟨db.nextOrderId, o.customer_id, o.order_notes.getD "", now⟩])) ∧
    (∀ (db : DB) (i : Nat),
      (delete_order db i).2.customer_orders =
        match findOrderById db i with
        | none => db.customer_orders
        | some _ => db.customer_orders.filter (fun x => x.id ≠ i)) := by
  refine ⟨?_, ?_, ?_, ?_, ?_, ?_, ?_, ?_, ?_⟩
  · intro db oid o
    unfold update_order
    cases h : findOrderById db oid with
    | none => rfl
    | some r =>
      simp only [insertOrderItems_eq]
      cases hr : insertResult db.menu_items o.items [] with
      | error e =>
        simp only [hr, orderTimes, List.map_map]
        apply List.map_congr_left
        intro x _
        by_cases hx : x.id = oid <;> simp [hx]
      | ok notes =>
        simp only [hr, orderTimes, List.map_map]
        apply List.map_congr_left
        intro x _
        by_cases hx : x.id = oid <;> simp [hx]
  · intro db c
    unfold create_customer
    by_cases h : db.customers.any (fun x => x.contact_number = c.contact_number) <;>
      simp [h]
  · intro db i c
    unfold update_customer
    split
    · rfl
    · split <;> rfl
  · intro db i
    unfold delete_customer
    cases h : findCustomerById db i <;> rfl
  · intro db item
    unfold create_menu_item
    by_cases h : db.menu_items.any (fun x => x.dish_name = item.dish_name) <;>
      simp [h]
  · intro db i item
    unfold update_menu_item
    split
    · rfl
    · split <;> rfl
  · intro db i
    unfold delete_menu_item
    cases h : findMenuById db i <;> rfl
  · intro db now o
    unfold create_order
    cases h : findCustomerById db o.customer_id with
    | none => simp
    | some c =>
      simp only [insertOrderItems_eq]
      cases hr : insertResult db.menu_items o.items [] <;> simp [hr]
  · intro db i
    unfold delete_order
    cases h : findOrderById db i <;> rfl

/-- C7: the first creation of a customer with an unused contact number
succeeds and returns the new id; a second creation with the same contact
number fails with the conflict error and leaves the customers table
unchanged. -/
theorem create_customer_duplicate_contact
    (db : DB) (c1 c2 : Customer)
    (hfree : ∀ x ∈ db.customers, x.contact_number ≠ c1.contact_number)
    (hdup : c2.contact_number = c1.contact_number) :
    ∃ db1 : DB,
      create_customer db c1 = (.ok db.nextCustomerId, db1) ∧
      db1.customers = db.customers ++
        [⟨db.nextCustomerId, c1.full_name, c1.contact_number⟩] ∧
      create_customer db1 c2 = (.error .duplicateContact, db1) := by
  have hany : (db.customers.any fun x =>
      x.contact_number = c1.contact_number) = false := by
    rw [List.any_eq_false]
    intro x hx
    simpa using hfree x hx
  refine ⟨{ db with
      customers := db.customers ++
        [⟨db.nextCustomerId, c1.full_name, c1.contact_number⟩],
      nextCustomerId := db.nextCustomerId + 1 }, ?_, rfl, ?_⟩
  · simp [create_customer, hany]
  · simp [create_customer, hdup]

/-- Witness for C7 with the fresh contact number 777. -/
theorem create_customer_duplicate_witness :
    ∃ db1 : DB,
      create_customer sampleDB ⟨"Bob", "777"⟩ = (.ok 2, db1) ∧
      db1.customers = sampleDB.customers ++ [⟨2, "Bob", "777"⟩] ∧
      create_customer db1 ⟨"Carl", "777"⟩ =
        (.error .duplicateContact, db1) :=
  create_customer_duplicate_contact sampleDB ⟨"Bob", "777"⟩ ⟨"Carl", "777"⟩
    (by decide) rfl

/-- C8: deleting a customer referenced by existing orders succeeds and
removes only the customer row: the orders table, the line items and the
menu are untouched, so the referencing header survives, now dangling. -/
theorem delete_customer_keeps_orders
    (db : DB) (cid : Nat) (cust : CustomerRow)
    (hc : findCustomerById db cid = some cust)
    (r : OrderRow) (hr : r ∈ db.customer_orders)
    (_href : r.customer_id = cid) :
    ∃ db2 : DB,
      delete_customer db cid = (.ok (), db2) ∧
      db2.customers = db.customers.filter (fun x => x.id ≠ cid) ∧
      db2.customer_orders = db.customer_orders ∧
      db2.ordered_items = db.ordered_items ∧
      db2.menu_items = db.menu_items ∧
      r ∈ db2.customer_orders := by
  refine ⟨{ db with customers := db.customers.filter (fun x => x.id ≠ cid) },
    ?_, rfl, rfl, rfl, rfl, hr⟩
  unfold delete_customer
  rw [hc]

/-- Witness for C8: deleting the sample customer 1, referenced by the
sample order. -/
theorem delete_customer_keeps_orders_witness :
    ∃ db2 : DB,
      delete_customer sampleDB 1 = (.ok (), db2) ∧
      db2.customers = [] ∧
      db2.customer_orders = sampleDB.customer_orders ∧
      db2.ordered_items = sampleDB.ordered_items := by
  obtain ⟨db2, h1, h2, h3, h4, _, _⟩ :=
    delete_customer_keeps_orders sampleDB 1 ⟨1, "Ada", "555"⟩ (by decide)
      ⟨1, 1, "table 4", 1000⟩ (by decide) rfl
  exact ⟨db2, h1, h2.trans (by decide), h3, h4⟩

/-- C9: Update Order performs no customer-existence check: on an existing
order whose new items all resolve, it succeeds even when the new customer
id references no customer, overwriting the header's customer reference —
unlike Create Order, which rejects the same request with not-found. -/
theorem update_order_skips_customer_check
    (db : DB) (oid : Nat) (o : OrderDetails) (now : Nat) (r : OrderRow)
    (ho : findOrderById db oid = some r)
    (hcust : findCustomerById db o.customer_id = none)
    (hall : ∀ it ∈ o.items, (menuLookup db.menu_items it.dish_name).isSome) :
    (∃ db3 : DB,
      update_order db oid o =
        (.ok ⟨oid,
          if (notesFor db.menu_items o.items).isEmpty then none
          else some (notesFor db.menu_items o.items)⟩, db3) ∧
      db3.customer_orders = db.customer_orders.map (fun x =>
        if x.id = oid then
          { x with customer_id := o.customer_id,
                   order_notes := o.order_notes.getD "" }
        else x)) ∧
    create_order db now o = (.error .customerNotFound, db) := by
  constructor
  · refine ⟨{ db with
        customer_orders := db.customer_orders.map (fun x =>
          if x.id = oid then
            { x with customer_id := o.customer_id,
                     order_notes := o.order_notes.getD "" }
          else x),
        ordered_items :=
          db.ordered_items.filter (fun l => l.order_id ≠ oid) ++
            linesFor db.menu_items oid o.items db.nextLineId,
        nextLineId := db.nextLineId +
          (linesFor db.menu_items oid o.items db.nextLineId).length },
      ?_, rfl⟩
    unfold update_order
    rw [ho]
    simp only [insertOrderItems_eq]
    simp only [insertResult_ok db.menu_items o.items [] hall, List.nil_append]
  · simp [create_order, hcust]

/-- Witness for C9: pointing the sample order at the absent customer 42
succeeds through PUT while POST of the same body is rejected. -/
theorem update_order_skips_customer_check_witness :
    (∃ db3 : DB,
      update_order sampleDB 1 ⟨42, [⟨"Idli", 3⟩], none⟩ =
        (.ok ⟨1, none⟩, db3) ∧
      db3.customer_orders = [⟨1, 42, "", 1000⟩]) ∧
    create_order sampleDB 1234 ⟨42, [⟨"Idli", 3⟩], none⟩ =
      (.error .customerNotFound, sampleDB) := by
  obtain ⟨⟨db3, h1, h2⟩, h3⟩ :=
    update_order_skips_customer_check sampleDB 1 ⟨42, [⟨"Idli", 3⟩], none⟩
      1234 ⟨1, 1, "table 4", 1000⟩ (by decide) (by decide) (by decide)
  exact ⟨⟨db3, h1.trans (congrArg (fun x => (x, db3)) (by decide)),
    h2.trans (by decide)⟩, h3⟩

/-- flatMap over the option-to-list of a lookup is filterMap by that
lookup. -/
theorem flatMap_option_toList {α β : Type} (l : List α) (g : α → Option β) :
    l.flatMap (fun x => (g x).toList) = l.filterMap g := by
  induction l with
  | nil => rfl
  | cons a t ih =>
    cases h : g a <;> simp [List.flatMap_cons, h, ih, List.filterMap_cons]

/-- C10: Read Order silently drops dangling line rows: with pairwise
distinct menu ids, the items array is exactly the line rows of the order
whose referenced menu item still exists, each joined to its menu row; a
line row whose menu item was deleted is omitted without error or
placeholder. -/
theorem get_order_drops_dangling_lines
    (db : DB) (oid : Nat) (r : OrderRow)
    (hnd : (db.menu_items.map (fun m => m.id)).Nodup)
    (ho : db.customer_orders.find? (fun x => x.id = oid) = some r) :
    get_order db oid = .ok ⟨r.id, r.customer_id, r.order_notes,
      (db.ordered_items.filter (fun l => l.order_id = oid)).filterMap
        (fun l => (db.menu_items.find? (fun m => m.id = l.menu_item_id)).map
          (fun m => ⟨m.dish_name, m.cost⟩))⟩ := by
  have hitems : orderItemsJoin db oid =
      (db.ordered_items.filter (fun l => l.order_id = oid)).filterMap
        (fun l => (db.menu_items.find? (fun m => m.id = l.menu_item_id)).map
          (fun m => ⟨m.dish_name, m.cost⟩)) := by
    unfold orderItemsJoin
    rw [← flatMap_option_toList]
    apply flatMap_congr_left
    intro l _
    rw [filter_id_eq_find_toList db.menu_items l.menu_item_id hnd]
    cases h : db.menu_items.find? (fun m => m.id = l.menu_item_id) <;>
      simp [h]
  unfold get_order
  rw [ho, hitems]

/-- Witness for C10: the sample order has a line referencing the deleted
menu item 9; reading the order returns only the Dosa line. -/
theorem get_order_drops_dangling_witness :
    get_order sampleDB 1 = .ok ⟨1, 1, "table 4", [⟨"Dosa", 5⟩]⟩ := by
  have h := get_order_drops_dangling_lines sampleDB 1 ⟨1, 1, "table 4", 1000⟩
    (by decide) (by decide)
  exact h.trans (by decide)

end Restaurant
